import Mathlib

/-!
Verification of the link-resolution and download-acquisition pipeline of the
medical paper downloader (paper_downloader.py).  The two pipeline functions,
download_pmc_papers and download_pubmed_free_fulltext_papers, are shallowly
embedded: every page interaction (selector query results, HTTP responses,
download events, navigation failures) is an explicit environment value, and
the decision logic of the source is translated function by function.
-/

namespace PaperDL

/-! String helpers modelling the Python string operations used by the source. -/

/-- Boolean substring test on char lists: hasSub pat s is true when pat occurs
contiguously inside s.  It models the Python expression pat in s. -/
def hasSub (pat : List Char) : List Char → Bool
  | [] => pat.isEmpty
  | c :: t => pat.isPrefixOf (c :: t) || hasSub pat t

/-- Python substring test pat in s, lifted to String. -/
def strContains (s pat : String) : Bool := hasSub pat.data s.data

/-- Python s.startswith(p). -/
def strStartsWith (s p : String) : Bool := p.data.isPrefixOf s.data

/-- Python s.endswith(p). -/
def strEndsWith (s p : String) : Bool := p.data.isSuffixOf s.data

/-- Python s.split(sep)[-1] for sep a single slash: the text after the last
slash, or all of s when s has no slash. -/
def lastSegment (s : String) : String :=
  ⟨(s.data.reverse.takeWhile (fun c => c != '/')).reverse⟩

/-- Python truthiness of an optional string attribute: None and the empty
string are both falsy, anything else is kept.  Models the guard if href. -/
def optStr (h : Option String) : Option String :=
  match h with
  | none => none
  | some s => if s.isEmpty then none else some s

/-! Result Enumerator, PMC path (paper_downloader.py lines 70-121). -/

/-- Origin prepended to relative links on the PMC site. -/
def pmcOrigin : String := "https://pmc.ncbi.nlm.nih.gov"

/-- Href normalization used throughout the source (lines 88-91, 154-160,
532-537, 565-570, 619-624): relative hrefs get the PMC origin prepended,
hrefs that already start with http are kept verbatim. -/
def normalizePmcHref (href : String) : String :=
  if strStartsWith href "/" then pmcOrigin ++ href
  else if !(strStartsWith href "http") then pmcOrigin ++ "/" ++ href
  else href

/-- Filter condition of the PMC selector pass (line 86). -/
def pmcSelCond (href : String) : Bool :=
  strContains href "PMC" || strContains href "/articles/"

/-- Filter condition of the PMC fallback all-links pass (line 105). -/
def pmcFbCond (href : String) : Bool :=
  strContains href "/articles/PMC" || strContains href "pmc/articles"

/-- Normalizer fed to the dedup-collect loop in the PMC selector pass. -/
def pmcNorm (href : String) : Option String :=
  if pmcSelCond href then some (normalizePmcHref href) else none

/-- Normalizer of the PMC fallback pass. -/
def pmcFbNorm (href : String) : Option String :=
  if pmcFbCond href then some (normalizePmcHref href) else none

/-- Inner accumulation loop shared by the enumerator passes (lines 84-94,
103-111, 448-458): each link yields an optional href; a candidate URL is
appended only when the href is truthy, the normalizer accepts it, and the
URL is not already in the accumulator. -/
def collectLinks (norm : String → Option String) (acc : List String) :
    List (Option String) → List String
  | [] => acc
  | h :: t =>
    match (optStr h).bind norm with
    | none => collectLinks norm acc t
    | some u =>
      if acc.contains u then collectLinks norm acc t
      else collectLinks norm (acc ++ [u]) t

/-- Selector loop of both enumerators (lines 81-96, 443-461): selectors whose
query returned no elements are skipped; the loop stops at the first selector
whose links produce at least one candidate. -/
def selectorLoop (norm : String → Option String) (acc : List String) :
    List (List (Option String)) → List String
  | [] => acc
  | links :: rest =>
    if links.isEmpty then selectorLoop norm acc rest
    else
      let acc1 := collectLinks norm acc links
      if acc1.isEmpty then selectorLoop norm acc1 rest else acc1

/-- Candidate links of the PMC search page before truncation (lines 70-111):
the selector pass, then the all-links fallback pass when it found nothing. -/
def pmcResultLinks (selLinks : List (List (Option String)))
    (allLinks : List (Option String)) : List String :=
  let r := selectorLoop pmcNorm [] selLinks
  if r.isEmpty then collectLinks pmcFbNorm [] allLinks else r

/-- PMC enumerator output (line 121): the candidate list truncated to k. -/
def enumeratePmc (selLinks : List (List (Option String)))
    (allLinks : List (Option String)) (k : Nat) : List String :=
  (pmcResultLinks selLinks allLinks).take k

/-! Result Enumerator, PubMed path (lines 429-499): PMID extraction. -/

/-- First regex of lines 453 and 475: a slash, then six or more digits, then
an optional final slash, anchored at the end of the href.  Returns the digit
group. -/
def pmidPatternEnd (href : String) : Option String :=
  let cs := href.data
  let cs := match cs.getLast? with
    | some '/' => cs.dropLast
    | _ => cs
  let r := cs.reverse
  let run := r.takeWhile Char.isDigit
  match r.dropWhile Char.isDigit with
  | '/' :: _ => if 6 ≤ run.length then some ⟨run.reverse⟩ else none
  | _ => none

/-- Tail matcher of the second regex: after an occurrence of pubmed, skip the
characters up to the next slash, then require six or more digits. -/
def pmidAfterPubmed (cs : List Char) : Option String :=
  match cs.dropWhile (fun c => c != '/') with
  | '/' :: rest =>
    let run := rest.takeWhile Char.isDigit
    if 6 ≤ run.length then some ⟨run⟩ else none
  | _ => none

/-- Second regex of lines 453 and 475: the token pubmed, a run of non-slash
characters, a slash, then six or more digits.  Leftmost occurrence wins. -/
def pmidPatternPubmed : List Char → Option String
  | [] => none
  | c :: t =>
    if "pubmed".data.isPrefixOf (c :: t) then
      match pmidAfterPubmed (t.drop 5) with
      | some p => some p
      | none => pmidPatternPubmed t
    else pmidPatternPubmed t

/-- PMID extraction of lines 453 and 475: first regex, else second regex. -/
def extractPmid (href : String) : Option String :=
  match pmidPatternEnd href with
  | some p => some p
  | none => pmidPatternPubmed href.data

/-- Canonical PubMed record URL built from an extracted PMID (line 456). -/
def pubmedUrlOf (pmid : String) : String :=
  "https://pubmed.ncbi.nlm.nih.gov/" ++ pmid ++ "/"

/-- Normalizer of the PubMed selector pass (lines 448-458). -/
def pubmedNorm (href : String) : Option String :=
  (extractPmid href).map pubmedUrlOf

/-- Normalizer of the PubMed alternative pass (lines 470-480), which also
requires the PMID length to be between six and eight. -/
def pubmedAltNorm (href : String) : Option String :=
  match extractPmid href with
  | some pmid =>
    if 6 ≤ pmid.length && pmid.length ≤ 8 then some (pubmedUrlOf pmid) else none
  | none => none

/-- Capped variant of the collect loop for the PubMed alternative pass
(lines 470-484): after an append the loop breaks once the accumulator has
reached the cap of two times k. -/
def collectLinksCapped (norm : String → Option String) (cap : Nat)
    (acc : List String) : List (Option String) → List String
  | [] => acc
  | h :: t =>
    match (optStr h).bind norm with
    | none => collectLinksCapped norm cap acc t
    | some u =>
      if acc.contains u then collectLinksCapped norm cap acc t
      else
        let acc1 := acc ++ [u]
        if cap ≤ acc1.length then acc1 else collectLinksCapped norm cap acc1 t

/-- Candidate links of the PubMed search page before truncation
(lines 443-484). -/
def pubmedResultLinks (selLinks : List (List (Option String)))
    (allLinks : List (Option String)) (k : Nat) : List String :=
  let r := selectorLoop pubmedNorm [] selLinks
  if r.isEmpty then collectLinksCapped pubmedAltNorm (k * 2) [] allLinks else r

/-- PubMed enumerator output (line 499): the candidate list truncated to k. -/
def enumeratePubmed (selLinks : List (List (Option String)))
    (allLinks : List (Option String)) (k : Nat) : List String :=
  (pubmedResultLinks selLinks allLinks k).take k

/-! Document Locator, PMC article page (lines 137-243). -/

/-- Canonical path fragment of a PDF link for a given PMC identifier. -/
def pdfFragment (pmcId : String) : String := "/articles/" ++ pmcId ++ "/pdf/"

/-- Canonical document URL template (lines 207, 240, 641): origin, article
identifier, pdf segment, filename. -/
def canonicalPdfUrl (pmcId filename : String) : String :=
  "https://pmc.ncbi.nlm.nih.gov/articles/" ++ pmcId ++ "/pdf/" ++ filename

/-- Canonical article page URL built from a PMC identifier (line 585). -/
def canonicalArticleUrl (pmcId : String) : String :=
  "https://pmc.ncbi.nlm.nih.gov/articles/" ++ pmcId ++ "/"

/-- Python s.replace with the pattern PMC and an empty replacement: removes
every occurrence of the three letters PMC, scanning left to right. -/
def removePMC : List Char → List Char
  | 'P' :: 'M' :: 'C' :: t => removePMC t
  | c :: t => c :: removePMC t
  | [] => []

/-- Numeric-only variant of a PMC identifier (lines 147, 168). -/
def pmcNum (pmcId : String) : String :=
  if strStartsWith pmcId "PMC" then ⟨removePMC pmcId.data⟩ else pmcId

/-- Loop body of the Priority-1 scan (lines 151-175) for one href.  The three
branches form an if-elif-elif chain, so when the identifier starts with PMC
the third branch is unreachable. -/
def p1Step (pmcId : String) (href : String) : Option String :=
  let full := normalizePmcHref href
  if strContains full (pdfFragment pmcId) && strEndsWith full ".pdf" then some full
  else if strStartsWith pmcId "PMC" then
    if strContains full (pdfFragment (pmcNum pmcId)) && strEndsWith full ".pdf" then
      some full
    else none
  else if strContains full (pdfFragment pmcId) then some full
  else none

/-- Priority-1 scan over the links matched by the exact-pattern selectors. -/
def p1Scan (pmcId : String) : List (Option String) → Option String
  | [] => none
  | h :: t =>
    match optStr h with
    | none => p1Scan pmcId t
    | some href =>
      match p1Step pmcId href with
      | some u => some u
      | none => p1Scan pmcId t

/-- Scan of the links with visible text PDF (lines 178-189): the first href
containing the canonical fragment wins and is normalized. -/
def pdfTextScan (pmcId : String) : List (Option String) → Option String
  | [] => none
  | h :: t =>
    match optStr h with
    | none => pdfTextScan pmcId t
    | some href =>
      if strContains href (pdfFragment pmcId) then some (normalizePmcHref href)
      else pdfTextScan pmcId t

/-- Loop body of the Priority-2 scan (lines 197-218) for one href ending in
.pdf: when the href lacks the canonical fragment the URL is reconstructed
from the identifier and the extracted filename, otherwise it is normalized. -/
def loosePdfStep (pmcId : String) (href : String) : Option String :=
  if strEndsWith href ".pdf" then
    let filename := lastSegment href
    if !(strContains href (pdfFragment pmcId)) then
      some (canonicalPdfUrl pmcId filename)
    else some (normalizePmcHref href)
  else none

/-- Priority-2 scan over all links whose href mentions .pdf (lines 196-218). -/
def loosePdfScan (pmcId : String) : List (Option String) → Option String
  | [] => none
  | h :: t =>
    match optStr h with
    | none => loosePdfScan pmcId t
    | some href =>
      match loosePdfStep pmcId href with
      | some u => some u
      | none => loosePdfScan pmcId t

/-- Priority-3 fallback (lines 221-243): for each generic selector the first
element is probed; an href ending in .pdf always yields the reconstructed
canonical URL.  Each entry models one query_selector call: none when the
selector matched nothing, otherwise the optional href of the element. -/
def fallbackPdfScan (pmcId : String) : List (Option (Option String)) → Option String
  | [] => none
  | sel :: t =>
    match sel with
    | some h =>
      match optStr h with
      | some href =>
        if strEndsWith href ".pdf" then some (canonicalPdfUrl pmcId (lastSegment href))
        else fallbackPdfScan pmcId t
      | none => fallbackPdfScan pmcId t
    | none => fallbackPdfScan pmcId t

/-- Link lists found on a PMC article page, one field per selector family the
locator queries. -/
structure ArticlePage where
  p1LinksA : List (Option String)
  p1LinksB : List (Option String)
  pdfTextLinks : List (Option String)
  p2Links : List (Option String)
  p3Selectors : List (Option (Option String))
deriving DecidableEq

/-- Python truthiness of the optional PMC identifier (guards at lines 142,
194, 221): None and the empty string are falsy. -/
def pmcIdTruthy (pmcIdOpt : Option String) : Option String := optStr pmcIdOpt

/-- Document Locator of the PMC pipeline (lines 137-243): Priority 1 with its
text-link sub-step, then Priority 2, then the Priority-3 fallback; every
priority is skipped when the identifier is falsy. -/
def locatePmcPdf (pmcIdOpt : Option String) (pg : ArticlePage) : Option String :=
  match pmcIdTruthy pmcIdOpt with
  | none => none
  | some pmcId =>
    let links := if pg.p1LinksA.isEmpty then pg.p1LinksB else pg.p1LinksA
    let pdf1 :=
      match p1Scan pmcId links with
      | some u => some u
      | none => pdfTextScan pmcId pg.pdfTextLinks
    match pdf1 with
    | some u => some u
    | none =>
      match loosePdfScan pmcId pg.p2Links with
      | some u => some u
      | none => fallbackPdfScan pmcId pg.p3Selectors

/-- PMC identifier derived from an article URL (line 131): the last URL
segment when the URL contains a slash, otherwise nothing. -/
def pmcIdOfUrl (url : String) : Option String :=
  if strContains url "/" then some (lastSegment url) else none

/-! Document Fetcher (lines 245-334 and 644-719): the three acquisition
strategies.  Byte contents are modelled as lists of byte values. -/

/-- Download event captured from the browser: the suggested filename and the
bytes the browser saved. -/
structure DownloadEv where
  suggested : Option String
  content : List Nat
deriving DecidableEq

/-- HTTP response of the request API. -/
structure HttpResp where
  ok : Bool
  body : List Nat
deriving DecidableEq

/-- Environment of one fetch attempt: per-selector click outcomes for
Method 1 (none models a missing element, a click failure or a timeout), the
optional response of Method 2 (none models a raised request), and the
optional download event of Method 3. -/
structure FetchEnv where
  clickResults : List (Option DownloadEv)
  httpResp : Option HttpResp
  navResult : Option DownloadEv
deriving DecidableEq

/-- Magic signature bytes of the PDF format, percent P D F. -/
def pdfMagic : List Nat := [37, 80, 68, 70]

/-- File persisted by the fetcher. -/
structure SavedFile where
  path : String
  content : List Nat
deriving DecidableEq

/-- Filename derivation (lines 250-253, 649-652): the last segment of the
document URL, replaced by the fallback base with a .pdf suffix when that
segment does not end in .pdf. -/
def deriveFilename (pdfLink : String) (fallbackBase : String) : String :=
  let f := lastSegment pdfLink
  if strEndsWith f ".pdf" then f else fallbackBase ++ ".pdf"

/-- Method 1, interactive trigger (lines 259-291, 656-678): the first selector
whose element click captures a download wins; a truthy suggested filename
replaces the derived one only when it ends in .pdf. -/
def method1 (downloadDir filename : String) :
    List (Option DownloadEv) → Option SavedFile
  | [] => none
  | none :: t => method1 downloadDir filename t
  | some dl :: t =>
    let fname :=
      match optStr dl.suggested with
      | some s => if strEndsWith s ".pdf" then s else filename
      | none => filename
    some ⟨downloadDir ++ "/" ++ fname, dl.content⟩

/-- Method 2, direct fetch (lines 293-317, 680-702): succeeds only when the
response status is ok and the body starts with the PDF magic bytes. -/
def method2 (downloadDir filename : String) (resp : Option HttpResp) :
    Option SavedFile :=
  match resp with
  | none => none
  | some r =>
    if r.ok then
      if pdfMagic.isPrefixOf r.body then
        some ⟨downloadDir ++ "/" ++ filename, r.body⟩
      else none
    else none

/-- Method 3, navigation-triggered download (lines 319-331, 704-716): any
captured download event is saved under the derived filename. -/
def method3 (downloadDir filename : String) (nav : Option DownloadEv) :
    Option SavedFile :=
  nav.map (fun dl => ⟨downloadDir ++ "/" ++ filename, dl.content⟩)

/-- Document Fetcher: the three methods attempted in order, first success
short-circuiting the rest (the if not pdf_downloaded chain of the source). -/
def fetchPdf (downloadDir pdfLink fallbackBase : String) (env : FetchEnv) :
    Option SavedFile :=
  let filename := deriveFilename pdfLink fallbackBase
  match method1 downloadDir filename env.clickResults with
  | some f => some f
  | none =>
    match method2 downloadDir filename env.httpResp with
    | some f => some f
    | none => method3 downloadDir filename env.navResult

/-- Results the three fetch strategies would individually produce. -/
def fetchTiers (downloadDir pdfLink fallbackBase : String) (env : FetchEnv) :
    List (Option SavedFile) :=
  let filename := deriveFilename pdfLink fallbackBase
  [method1 downloadDir filename env.clickResults,
   method2 downloadDir filename env.httpResp,
   method3 downloadDir filename env.navResult]

/-! Generic first-success chain combinator, used to state the tier-ordering
properties of the fetch methods and the resolver tiers. -/

/-- First successful result of a prioritized chain. -/
def chainFirst {α : Type} : List (Option α) → Option α
  | [] => none
  | some a :: _ => some a
  | none :: t => chainFirst t

/-- Number of tiers of a prioritized chain that are invoked: every tier up to
and including the first successful one, or all of them when none succeeds. -/
def chainCount {α : Type} : List (Option α) → Nat
  | [] => 0
  | some _ :: _ => 1
  | none :: t => 1 + chainCount t

/-! Identifier Resolver, PubMed record page (lines 515-591). -/

/-- Case-insensitive scan for the letters PMC followed by at least minLen
digits, modelling re.search with the pattern PMC followed by a digit group
and the IGNORECASE flag (lines 529, 561, 582).  Returns the digit group of
the leftmost match. -/
def pmcScan (minLen : Nat) : List Char → Option (List Char)
  | [] => none
  | c :: t =>
    match t with
    | m :: cc :: rest =>
      if c.toLower == 'p' && m.toLower == 'm' && cc.toLower == 'c' then
        let run := rest.takeWhile Char.isDigit
        if minLen ≤ run.length && 1 ≤ run.length then some run
        else pmcScan minLen t
      else pmcScan minLen t
    | _ => none

/-- PMC identifier extracted from one href (lines 529-531, 561-563). -/
def extractPmcId (href : String) : Option String :=
  (pmcScan 1 href.data).map (fun n => "PMC" ++ (⟨n⟩ : String))

/-- Filter condition of the resolver tier-2 inner loop (line 559): the href
uppercased contains PMC, or the href contains the articles segment. -/
def tier2Cond (href : String) : Bool :=
  hasSub "PMC".data (href.data.map Char.toUpper) || strContains href "/articles/"

/-- Tier 1 (lines 521-540): links inside the full-text section; the first
href with a PMC identifier yields the pair of the identifier and the
normalized href. -/
def tier1 : List (Option String) → Option (String × String)
  | [] => none
  | h :: t =>
    match optStr h with
    | none => tier1 t
    | some href =>
      match extractPmcId href with
      | some id => some (id, normalizePmcHref href)
      | none => tier1 t

/-- Inner loop of tier 2 (lines 555-571). -/
def tier2Inner : List (Option String) → Option (String × String)
  | [] => none
  | h :: t =>
    match optStr h with
    | none => tier2Inner t
    | some href =>
      if tier2Cond href then
        match extractPmcId href with
        | some id => some (id, normalizePmcHref href)
        | none => tier2Inner t
      else tier2Inner t

/-- Tier 2 (lines 543-575): unscoped selector list; selectors with no links
are skipped and the first selector producing an identifier wins. -/
def tier2 : List (List (Option String)) → Option (String × String)
  | [] => none
  | links :: rest =>
    if links.isEmpty then tier2 rest
    else
      match tier2Inner links with
      | some r => some r
      | none => tier2 rest

/-- Tier 3 (lines 578-587): regex scan of the raw page markup for PMC
followed by six or more digits; the article URL is built from the canonical
template. -/
def tier3 (content : String) : Option (String × String) :=
  (pmcScan 6 content.data).map
    (fun n =>
      let id := "PMC" ++ (⟨n⟩ : String)
      (id, canonicalArticleUrl id))

/-- Data of one PubMed record page as seen by the resolver. -/
structure ResolverPage where
  sectionLinks : List (Option String)
  selectorLinks : List (List (Option String))
  content : String
deriving DecidableEq

/-- Identifier Resolver: the three tiers in order, first success winning
(the if not pmc_id chain of lines 543 and 578). -/
def resolvePmc (pg : ResolverPage) : Option (String × String) :=
  match tier1 pg.sectionLinks with
  | some r => some r
  | none =>
    match tier2 pg.selectorLinks with
    | some r => some r
    | none => tier3 pg.content

/-- Results the three resolver tiers would individually produce. -/
def resolverTiers (pg : ResolverPage) : List (Option (String × String)) :=
  [tier1 pg.sectionLinks, tier2 pg.selectorLinks, tier3 pg.content]

/-! Pipeline Orchestrator, PMC path (lines 113-354). -/

/-- Environment of one PMC per-article iteration: whether navigation to the
article page raises (caught by the per-article handler at line 344), the
article page content, and the fetch environment. -/
structure PmcArticleEnv where
  gotoFails : Bool
  page : ArticlePage
  fetch : FetchEnv
deriving DecidableEq

/-- One PMC per-article step (lines 125-346): identifier extraction, article
page navigation, Document Locator, Document Fetcher.  Every failure mode,
including a raised navigation exception, ends in none and the loop goes on. -/
def processPmcArticle (i : Nat) (articleUrl downloadDir : String)
    (env : PmcArticleEnv) : Option String :=
  if env.gotoFails then none
  else
    let pmcIdOpt := pmcIdOfUrl articleUrl
    match locatePmcPdf pmcIdOpt env.page with
    | none => none
    | some pdfLink =>
      let base :=
        match pmcIdTruthy pmcIdOpt with
        | some s => s
        | none => "paper_" ++ toString i
      (fetchPdf downloadDir pdfLink base env.fetch).map SavedFile.path

/-- Article loop of the PMC pipeline (line 125): one-based enumeration, each
successful download appended in order, failures skipped. -/
def runPmcArticles (downloadDir : String) (envf : Nat → PmcArticleEnv) :
    Nat → List String → List String
  | _, [] => []
  | i, url :: t =>
    match processPmcArticle i url downloadDir (envf i) with
    | some p => p :: runPmcArticles downloadDir envf (i + 1) t
    | none => runPmcArticles downloadDir envf (i + 1) t

/-- Environment of one PMC pipeline invocation. -/
structure PmcSearchEnv where
  selLinks : List (List (Option String))
  allLinks : List (Option String)
  articleEnv : Nat → PmcArticleEnv

/-- PMC pipeline (download_pmc_papers): on an empty candidate list a
screenshot debug artifact is written (line 117) and the empty list is
returned (line 118); otherwise the first k candidates are processed.  The
second component collects the debug files written. -/
def runPmcPipeline (k : Nat) (downloadDir : String) (env : PmcSearchEnv) :
    List String × List String :=
  let r := pmcResultLinks env.selLinks env.allLinks
  if r.isEmpty then ([], ["debug_search_page.png"])
  else (runPmcArticles downloadDir env.articleEnv 1 (r.take k), [])

/-! Pipeline Orchestrator, PubMed path (lines 486-738). -/

/-- Inner loop of the PubMed PDF selector scan (lines 615-629). -/
def pubmedLocInner (pmcId : String) : List (Option String) → Option String
  | [] => none
  | h :: t =>
    match optStr h with
    | none => pubmedLocInner pmcId t
    | some href =>
      if strContains href ".pdf" then
        let full := normalizePmcHref href
        if strContains full (pdfFragment pmcId) && strEndsWith full ".pdf" then
          some full
        else pubmedLocInner pmcId t
      else pubmedLocInner pmcId t

/-- Outer loop of the PubMed PDF selector scan (lines 612-631). -/
def pubmedLocOuter (pmcId : String) : List (List (Option String)) → Option String
  | [] => none
  | links :: rest =>
    if links.isEmpty then pubmedLocOuter pmcId rest
    else
      match pubmedLocInner pmcId links with
      | some u => some u
      | none => pubmedLocOuter pmcId rest

/-- Loose construction branch of the PubMed locator (lines 634-642): the
first href ending in .pdf yields the canonical URL rebuilt from the
identifier and the extracted filename. -/
def pubmedLooseConstruct (pmcId : String) : List (Option String) → Option String
  | [] => none
  | h :: t =>
    match optStr h with
    | none => pubmedLooseConstruct pmcId t
    | some href =>
      if strEndsWith href ".pdf" then
        some (canonicalPdfUrl pmcId (lastSegment href))
      else pubmedLooseConstruct pmcId t

/-- Document Locator of the PubMed pipeline (lines 600-642). -/
def locatePubmedPdf (pmcId : String) (selLinks : List (List (Option String)))
    (looseLinks : List (Option String)) : Option String :=
  match pubmedLocOuter pmcId selLinks with
  | some u => some u
  | none =>
    if pmcId.isEmpty then none
    else pubmedLooseConstruct pmcId looseLinks

/-- Environment of one PubMed per-article iteration. -/
structure PubmedArticleEnv where
  gotoFails : Bool
  resolver : ResolverPage
  gotoPmcFails : Bool
  pdfSelLinks : List (List (Option String))
  loosePdfLinks : List (Option String)
  fetch : FetchEnv

/-- One PubMed per-article step (lines 503-730): record page navigation,
Identifier Resolver, PMC article navigation, Document Locator, Document
Fetcher.  A record with no identifier is skipped (lines 589-591); every
raised exception is caught by the per-article handler (line 728). -/
def processPubmedArticle (downloadDir : String) (env : PubmedArticleEnv) :
    Option String :=
  if env.gotoFails then none
  else
    match resolvePmc env.resolver with
    | none => none
    | some (pmcId, _pmcLink) =>
      if env.gotoPmcFails then none
      else
        match locatePubmedPdf pmcId env.pdfSelLinks env.loosePdfLinks with
        | none => none
        | some pdfLink =>
          (fetchPdf downloadDir pdfLink pmcId env.fetch).map SavedFile.path

/-- Article loop of the PubMed pipeline (line 503). -/
def runPubmedArticles (downloadDir : String) (envf : Nat → PubmedArticleEnv) :
    Nat → List String → List String
  | _, [] => []
  | i, _url :: t =>
    match processPubmedArticle downloadDir (envf i) with
    | some p => p :: runPubmedArticles downloadDir envf (i + 1) t
    | none => runPubmedArticles downloadDir envf (i + 1) t

/-- Environment of one PubMed pipeline invocation. -/
structure PubmedSearchEnv where
  selLinks : List (List (Option String))
  allLinks : List (Option String)
  articleEnv : Nat → PubmedArticleEnv

/-- PubMed pipeline (download_pubmed_free_fulltext_papers): on an empty
candidate list both a screenshot and an html dump are written (lines
491-494) and the empty list is returned (line 496); otherwise the first k
candidates are processed. -/
def runPubmedPipeline (k : Nat) (downloadDir : String) (env : PubmedSearchEnv) :
    List String × List String :=
  let r := pubmedResultLinks env.selLinks env.allLinks k
  if r.isEmpty then
    ([], ["debug_pubmed_search_page.png", "debug_pubmed_search_page.html"])
  else (runPubmedArticles downloadDir env.articleEnv 1 (r.take k), [])

/-! Session lifecycle (lines 38-59, 348-351 and 387-408, 732-735): the
browser is launched inside a with block over sync_playwright; the body is a
try with a catch-all except and a finally that closes the browser.  Per the
Playwright contract, leaving the with block stops the driver, which closes
every browser launched through it. -/

/-- Observable resource events of one pipeline invocation. -/
inductive SEv where
  | launch
  | close
  | stop
  | ret
  | exc
deriving DecidableEq

/-- Outcome of the try body: a normal fall-through, the early return on
enumeration failure (line 118), or an exception caught at line 348. -/
inductive BodyOutcome where
  | normal
  | earlyReturn
  | raises
deriving DecidableEq

/-- Environment of one session: whether launch, context creation and page
creation succeed, and how the body exits. -/
structure SessionEnv where
  launchOk : Bool
  newContextOk : Bool
  newPageOk : Bool
  body : BodyOutcome
deriving DecidableEq

/-- Event trace of one pipeline invocation.  A failed launch raises out of
the with block; failures of new_context or new_page happen after the launch
but before the try, so only the with-block teardown runs; once the try block
is entered, the finally clause closes the browser no matter how the body
exits, and the function returns normally because the except clause swallows
body exceptions. -/
def sessionEvents (env : SessionEnv) : List SEv :=
  if !env.launchOk then [SEv.exc, SEv.stop]
  else if !env.newContextOk then [SEv.launch, SEv.exc, SEv.stop]
  else if !env.newPageOk then [SEv.launch, SEv.exc, SEv.stop]
  else
    match env.body with
    | BodyOutcome.normal => [SEv.launch, SEv.close, SEv.stop, SEv.ret]
    | BodyOutcome.earlyReturn => [SEv.launch, SEv.close, SEv.stop, SEv.ret]
    | BodyOutcome.raises => [SEv.launch, SEv.close, SEv.stop, SEv.ret]

/-! Discovery streams and demonstration environments used in the statements
and witnesses below. -/

/-- Normalized URLs of every link the PMC enumerator can discover, in
discovery order: the selector passes followed by the fallback pass. -/
def pmcStream (selLinks : List (List (Option String)))
    (allLinks : List (Option String)) : List String :=
  selLinks.flatten.filterMap (fun h => (optStr h).bind pmcNorm) ++
    allLinks.filterMap (fun h => (optStr h).bind pmcFbNorm)

/-- Normalized URLs of every link the PubMed enumerator can discover, in
discovery order. -/
def pubmedStream (selLinks : List (List (Option String)))
    (allLinks : List (Option String)) : List String :=
  selLinks.flatten.filterMap (fun h => (optStr h).bind pubmedNorm) ++
    allLinks.filterMap (fun h => (optStr h).bind pubmedAltNorm)

/-- Article page with one canonical PDF link. -/
def demoArticlePage : ArticlePage :=
  ⟨[some "/articles/PMC1/pdf/a.pdf"], [], [], [], []⟩

/-- Fetch environment whose first click captures a PDF download. -/
def demoFetchEnv : FetchEnv := ⟨[some ⟨none, [37, 80, 68, 70]⟩], none, none⟩

/-- Article environment that downloads successfully. -/
def demoGoodPmcArticleEnv : PmcArticleEnv := ⟨false, demoArticlePage, demoFetchEnv⟩

/-- Article environment whose navigation raises. -/
def demoBadPmcArticleEnv : PmcArticleEnv :=
  ⟨true, ⟨[], [], [], [], []⟩, ⟨[], none, none⟩⟩

/-- Search environment with one PMC result that downloads successfully. -/
def demoPmcSearchEnv : PmcSearchEnv :=
  ⟨[[some "/articles/PMC1"]], [], fun _ => demoGoodPmcArticleEnv⟩

/-- Search environment whose page has no candidate links at all. -/
def demoEmptyPmcSearchEnv : PmcSearchEnv := ⟨[], [], fun _ => demoBadPmcArticleEnv⟩

/-- Record page whose full-text section resolves to PMC123456. -/
def demoResolverPage : ResolverPage := ⟨[some "/articles/PMC123456/"], [], ""⟩

/-- Record page with no PMC cross-reference anywhere. -/
def demoNoneResolverPage : ResolverPage := ⟨[], [], "nothing here"⟩

/-- PubMed article environment that downloads successfully. -/
def demoPubmedArticleEnv : PubmedArticleEnv :=
  ⟨false, demoResolverPage, false, [[some "/articles/PMC123456/pdf/b.pdf"]], [],
    demoFetchEnv⟩

/-- PubMed article environment whose record has no PMC identifier. -/
def demoBadPubmedArticleEnv : PubmedArticleEnv :=
  ⟨false, demoNoneResolverPage, false, [], [], ⟨[], none, none⟩⟩

/-- PubMed search environment with one record that downloads successfully. -/
def demoPubmedSearchEnv : PubmedSearchEnv :=
  ⟨[[some "/28390121/"]], [], fun _ => demoPubmedArticleEnv⟩

/-- PubMed search environment whose page has no candidate links at all. -/
def demoEmptyPubmedSearchEnv : PubmedSearchEnv :=
  ⟨[], [], fun _ => demoBadPubmedArticleEnv⟩

/-- Per-article environments where only the second candidate fails. -/
def demoPmcEnvf : Nat → PmcArticleEnv :=
  fun n => if n == 2 then demoBadPmcArticleEnv else demoGoodPmcArticleEnv

/-- PubMed per-article environments where only the second candidate has no
PMC identifier. -/
def demoPubmedEnvf : Nat → PubmedArticleEnv :=
  fun n => if n == 2 then demoBadPubmedArticleEnv else demoPubmedArticleEnv

/-- Demonstration PMC article URL. -/
def demoArticleUrl : String := "https://pmc.ncbi.nlm.nih.gov/articles/PMC1"

/-! Helper lemmas about the string model. -/

theorem hasSub_iff (pat s : List Char) : hasSub pat s = true ↔ pat <:+: s := by
  induction s with
  | nil => simp [hasSub, List.isEmpty_iff, List.infix_nil]
  | cons c t ih =>
    simp [hasSub, List.isPrefixOf_iff_prefix, ih, List.infix_cons_iff]

theorem hasSub_middle (p l r : List Char) : hasSub p (l ++ p ++ r) = true := by
  rw [hasSub_iff]
  exact ⟨l, r, rfl⟩

theorem strEndsWith_append (s t suf : String) (h : strEndsWith t suf = true) :
    strEndsWith (s ++ t) suf = true := by
  rw [strEndsWith, List.isSuffixOf_iff_suffix] at h ⊢
  rw [String.data_append]
  exact h.trans (List.suffix_append _ _)

theorem strEndsWith_append_self (b suf : String) :
    strEndsWith (b ++ suf) suf = true := by
  rw [strEndsWith, List.isSuffixOf_iff_suffix, String.data_append]
  exact List.suffix_append _ _

theorem canonical_contains_fragment (pmcId f : String) :
    strContains (canonicalPdfUrl pmcId f) (pdfFragment pmcId) = true := by
  have hsplit : ("https://pmc.ncbi.nlm.nih.gov/articles/" : String) =
      "https://pmc.ncbi.nlm.nih.gov" ++ "/articles/" := by decide
  have hcan : canonicalPdfUrl pmcId f =
      ("https://pmc.ncbi.nlm.nih.gov" ++ pdfFragment pmcId) ++ f := by
    rw [canonicalPdfUrl, pdfFragment, hsplit]
    simp only [String.append_assoc]
  rw [strContains, hcan, String.data_append, String.data_append]
  exact hasSub_middle _ _ _

theorem optStr_some (href : String) (h : href.isEmpty = false) :
    optStr (some href) = some href := by
  rw [optStr, h]
  simp

theorem canonical_ne_loose (pmcId f href : String)
    (hloose : strContains href (pdfFragment pmcId) = false) :
    canonicalPdfUrl pmcId f ≠ href := by
  intro he
  have hc := canonical_contains_fragment pmcId f
  rw [he, hloose] at hc
  cases hc

/-! Helper lemmas about the enumerator loops. -/

theorem collectLinks_spec (norm : String → Option String) :
    ∀ (l : List (Option String)) (acc : List String),
      ∃ s, collectLinks norm acc l = acc ++ s ∧
        s.Sublist (l.filterMap (fun h => (optStr h).bind norm)) ∧
        (acc.Nodup → (acc ++ s).Nodup) := by
  intro l
  induction l with
  | nil =>
    intro acc
    exact ⟨[], by simp [collectLinks], List.nil_sublist _, fun h => by simpa⟩
  | cons h t ih =>
    intro acc
    rw [collectLinks, List.filterMap_cons]
    cases hb : (optStr h).bind norm with
    | none => exact ih acc
    | some u =>
      by_cases hc : acc.contains u
      · simp only [hc, if_true]
        obtain ⟨s, h1, h2, h3⟩ := ih acc
        exact ⟨s, h1, h2.cons u, h3⟩
      · simp only [hc, if_false]
        obtain ⟨s, h1, h2, h3⟩ := ih (acc ++ [u])
        refine ⟨u :: s, by simpa [List.append_assoc] using h1, h2.cons₂ u, ?_⟩
        intro hacc
        have hu : u ∉ acc := by simpa using hc
        have hnd : (acc ++ [u]).Nodup := by
          rw [List.nodup_append_comm]
          simpa [List.nodup_cons] using ⟨hu, hacc⟩
        simpa [List.append_assoc] using h3 hnd

theorem collectLinksCapped_spec (norm : String → Option String) (cap : Nat) :
    ∀ (l : List (Option String)) (acc : List String),
      ∃ s, collectLinksCapped norm cap acc l = acc ++ s ∧
        s.Sublist (l.filterMap (fun h => (optStr h).bind norm)) ∧
        (acc.Nodup → (acc ++ s).Nodup) := by
  intro l
  induction l with
  | nil =>
    intro acc
    exact ⟨[], by simp [collectLinksCapped], List.nil_sublist _, fun h => by simpa⟩
  | cons h t ih =>
    intro acc
    rw [collectLinksCapped, List.filterMap_cons]
    cases hb : (optStr h).bind norm with
    | none => exact ih acc
    | some u =>
      by_cases hc : acc.contains u
      · simp only [hc, if_true]
        obtain ⟨s, h1, h2, h3⟩ := ih acc
        exact ⟨s, h1, h2.cons u, h3⟩
      · simp only [hc, if_false]
        have hu : u ∉ acc := by simpa using hc
        have hnd : acc.Nodup → (acc ++ [u]).Nodup := by
          intro hacc
          rw [List.nodup_append_comm]
          simpa [List.nodup_cons] using ⟨hu, hacc⟩
        by_cases hcap : cap ≤ (acc ++ [u]).length
        · simp only [hcap, if_true]
          exact ⟨[u], rfl, (List.nil_sublist _).cons₂ u, hnd⟩
        · simp only [hcap, if_false]
          obtain ⟨s, h1, h2, h3⟩ := ih (acc ++ [u])
          refine ⟨u :: s, by simpa [List.append_assoc] using h1, h2.cons₂ u, ?_⟩
          intro hacc
          simpa [List.append_assoc] using h3 (hnd hacc)

theorem selectorLoop_spec (norm : String → Option String) :
    ∀ ls : List (List (Option String)),
      (selectorLoop norm [] ls).Sublist
        (ls.flatten.filterMap (fun h => (optStr h).bind norm)) ∧
      (selectorLoop norm [] ls).Nodup := by
  intro ls
  induction ls with
  | nil => exact ⟨List.nil_sublist _, List.nodup_nil⟩
  | cons links rest ih =>
    rw [selectorLoop, List.flatten_cons, List.filterMap_append]
    by_cases he : links.isEmpty
    · simp only [he, if_true]
      exact ⟨ih.1.trans (List.sublist_append_right _ _), ih.2⟩
    · simp only [he, if_false]
      obtain ⟨s, h1, h2, h3⟩ := collectLinks_spec norm links []
      rw [List.nil_append] at h1
      by_cases hne : (collectLinks norm [] links).isEmpty
      · simp only [hne, if_true]
        rw [List.isEmpty_iff] at hne
        rw [hne]
        exact ⟨ih.1.trans (List.sublist_append_right _ _), ih.2⟩
      · simp only [hne, if_false]
        rw [h1]
        exact ⟨h2.trans (List.sublist_append_left _ _), by simpa using h3 List.nodup_nil⟩

theorem pmcResultLinks_spec (selLinks : List (List (Option String)))
    (allLinks : List (Option String)) :
    (pmcResultLinks selLinks allLinks).Sublist (pmcStream selLinks allLinks) ∧
    (pmcResultLinks selLinks allLinks).Nodup := by
  rw [pmcResultLinks, pmcStream]
  by_cases he : (selectorLoop pmcNorm [] selLinks).isEmpty
  · simp only [he, if_true]
    obtain ⟨s, h1, h2, h3⟩ := collectLinks_spec pmcFbNorm allLinks []
    rw [List.nil_append] at h1
    rw [h1]
    exact ⟨h2.trans (List.sublist_append_right _ _), by simpa using h3 List.nodup_nil⟩
  · simp only [he, if_false]
    obtain ⟨h1, h2⟩ := selectorLoop_spec pmcNorm selLinks
    exact ⟨h1.trans (List.sublist_append_left _ _), h2⟩

theorem pubmedResultLinks_spec (selLinks : List (List (Option String)))
    (allLinks : List (Option String)) (k : Nat) :
    (pubmedResultLinks selLinks allLinks k).Sublist (pubmedStream selLinks allLinks) ∧
    (pubmedResultLinks selLinks allLinks k).Nodup := by
  rw [pubmedResultLinks, pubmedStream]
  by_cases he : (selectorLoop pubmedNorm [] selLinks).isEmpty
  · simp only [he, if_true]
    obtain ⟨s, h1, h2, h3⟩ := collectLinksCapped_spec pubmedAltNorm (k * 2) allLinks []
    rw [List.nil_append] at h1
    rw [h1]
    exact ⟨h2.trans (List.sublist_append_right _ _), by simpa using h3 List.nodup_nil⟩
  · simp only [he, if_false]
    obtain ⟨h1, h2⟩ := selectorLoop_spec pubmedNorm selLinks
    exact ⟨h1.trans (List.sublist_append_left _ _), h2⟩

/-! Helper lemmas about PMID extraction and href normalization. -/

theorem pmidPatternEnd_spec (href : String) (p : String)
    (h : pmidPatternEnd href = some p) :
    6 ≤ p.length ∧ p.data.all Char.isDigit = true := by
  simp only [pmidPatternEnd] at h
  split at h
  · split at h
    · rename_i hlen
      cases h
      refine ⟨by simpa using hlen, ?_⟩
      simp
    · cases h
  · cases h

theorem pmidAfterPubmed_spec (cs : List Char) (p : String)
    (h : pmidAfterPubmed cs = some p) :
    6 ≤ p.length ∧ p.data.all Char.isDigit = true := by
  simp only [pmidAfterPubmed] at h
  split at h
  · split at h
    · rename_i hlen
      cases h
      exact ⟨by simpa using hlen, by simp⟩
    · cases h
  · cases h

theorem pmidPatternPubmed_spec :
    ∀ (cs : List Char) (p : String), pmidPatternPubmed cs = some p →
      6 ≤ p.length ∧ p.data.all Char.isDigit = true := by
  intro cs
  induction cs with
  | nil => intro p h; cases h
  | cons c t ih =>
    intro p h
    rw [pmidPatternPubmed] at h
    by_cases hp : "pubmed".data.isPrefixOf (c :: t) = true
    · rw [hp] at h
      simp only [if_true] at h
      cases hm : pmidAfterPubmed (t.drop 5) with
      | some q =>
        rw [hm] at h
        cases h
        exact pmidAfterPubmed_spec _ _ hm
      | none =>
        rw [hm] at h
        exact ih p h
    · rw [Bool.not_eq_true] at hp
      rw [hp] at h
      simp at h
      exact ih p h

theorem extractPmid_spec (href : String) (p : String)
    (h : extractPmid href = some p) :
    6 ≤ p.length ∧ p.data.all Char.isDigit = true := by
  rw [extractPmid] at h
  cases he : pmidPatternEnd href with
  | some q =>
    rw [he] at h
    cases h
    exact pmidPatternEnd_spec href p he
  | none =>
    rw [he] at h
    exact pmidPatternPubmed_spec _ p h

theorem normalizePmcHref_cases (href : String) :
    (strStartsWith href "/" = true ∧ normalizePmcHref href = pmcOrigin ++ href) ∨
    (strStartsWith href "/" = false ∧ strStartsWith href "http" = false ∧
      normalizePmcHref href = pmcOrigin ++ "/" ++ href) ∨
    (strStartsWith href "/" = false ∧ strStartsWith href "http" = true ∧
      normalizePmcHref href = href) := by
  rw [normalizePmcHref]
  by_cases h1 : strStartsWith href "/" = true
  · exact Or.inl ⟨h1, by rw [h1]; simp⟩
  · rw [Bool.not_eq_true] at h1
    by_cases h2 : strStartsWith href "http" = true
    · refine Or.inr (Or.inr ⟨h1, h2, ?_⟩)
      rw [h1, h2]
      simp
    · rw [Bool.not_eq_true] at h2
      refine Or.inr (Or.inl ⟨h1, h2, ?_⟩)
      rw [h1, h2]
      simp

theorem mem_stream_of_mem_enumeratePmc (selLinks : List (List (Option String)))
    (allLinks : List (Option String)) (k : Nat) (u : String)
    (hu : u ∈ enumeratePmc selLinks allLinks k) :
    ∃ href, (pmcNorm href = some u ∨ pmcFbNorm href = some u) := by
  have hsub : (enumeratePmc selLinks allLinks k).Sublist (pmcStream selLinks allLinks) :=
    (List.take_sublist _ _).trans (pmcResultLinks_spec selLinks allLinks).1
  have hmem : u ∈ pmcStream selLinks allLinks := hsub.subset hu
  rw [pmcStream, List.mem_append] at hmem
  cases hmem with
  | inl hm =>
    obtain ⟨h, _, hb⟩ := List.mem_filterMap.mp hm
    obtain ⟨href, _, hn⟩ := Option.bind_eq_some.mp hb
    exact ⟨href, Or.inl hn⟩
  | inr hm =>
    obtain ⟨h, _, hb⟩ := List.mem_filterMap.mp hm
    obtain ⟨href, _, hn⟩ := Option.bind_eq_some.mp hb
    exact ⟨href, Or.inr hn⟩

theorem mem_stream_of_mem_enumeratePubmed (selLinks : List (List (Option String)))
    (allLinks : List (Option String)) (k : Nat) (u : String)
    (hu : u ∈ enumeratePubmed selLinks allLinks k) :
    ∃ href, (pubmedNorm href = some u ∨ pubmedAltNorm href = some u) := by
  have hsub : (enumeratePubmed selLinks allLinks k).Sublist (pubmedStream selLinks allLinks) :=
    (List.take_sublist _ _).trans (pubmedResultLinks_spec selLinks allLinks k).1
  have hmem : u ∈ pubmedStream selLinks allLinks := hsub.subset hu
  rw [pubmedStream, List.mem_append] at hmem
  cases hmem with
  | inl hm =>
    obtain ⟨h, _, hb⟩ := List.mem_filterMap.mp hm
    obtain ⟨href, _, hn⟩ := Option.bind_eq_some.mp hb
    exact ⟨href, Or.inl hn⟩
  | inr hm =>
    obtain ⟨h, _, hb⟩ := List.mem_filterMap.mp hm
    obtain ⟨href, _, hn⟩ := Option.bind_eq_some.mp hb
    exact ⟨href, Or.inr hn⟩

/-! Helper lemmas about the prioritized chains. -/

theorem chainCount_earlier_none {α : Type} :
    ∀ (l : List (Option α)) (i : Nat), i + 1 < chainCount l → l[i]? = some none := by
  intro l
  induction l with
  | nil => intro i hi; simp [chainCount] at hi
  | cons a t ih =>
    intro i hi
    cases a with
    | some x => simp [chainCount] at hi
    | none =>
      cases i with
      | zero => simp
      | succ j =>
        rw [chainCount] at hi
        have : j + 1 < chainCount t := by omega
        simpa using ih j this

/-! Claim theorems. -/

/-- C3: for every result limit k and every sequence of links discovered on
the search page, the candidate list passed on for processing has length at
most k, contains no duplicate normalized URLs, and preserves discovery order
(it is a sublist of the normalized discovery stream).  This holds for both
the PMC and the PubMed enumerator. -/
theorem c3_enumerator_bounded_nodup_ordered (k : Nat)
    (pmcSel : List (List (Option String))) (pmcAll : List (Option String))
    (pubSel : List (List (Option String))) (pubAll : List (Option String)) :
    ((enumeratePmc pmcSel pmcAll k).length ≤ k ∧
      (enumeratePmc pmcSel pmcAll k).Nodup ∧
      (enumeratePmc pmcSel pmcAll k).Sublist (pmcStream pmcSel pmcAll)) ∧
    ((enumeratePubmed pubSel pubAll k).length ≤ k ∧
      (enumeratePubmed pubSel pubAll k).Nodup ∧
      (enumeratePubmed pubSel pubAll k).Sublist (pubmedStream pubSel pubAll)) := by
  obtain ⟨hs1, hn1⟩ := pmcResultLinks_spec pmcSel pmcAll
  obtain ⟨hs2, hn2⟩ := pubmedResultLinks_spec pubSel pubAll k
  refine ⟨⟨List.length_take_le _ _, ?_, ?_⟩, ⟨List.length_take_le _ _, ?_, ?_⟩⟩
  · exact (List.take_sublist _ _).nodup hn1
  · exact (List.take_sublist _ _).trans hs1
  · exact (List.take_sublist _ _).nodup hn2
  · exact (List.take_sublist _ _).trans hs2

/-- C9 as stated is false: an href that already starts with http is taken
verbatim by the PMC enumerator (line 91), so a candidate URL need not be an
absolute https URL rooted at the source site.  Concretely, a plain-http link
on a foreign host survives enumeration unchanged. -/
theorem c9_counterexample :
    enumeratePmc [[some "http://example.org/articles/PMC1/"]] [] 5 =
      ["http://example.org/articles/PMC1/"] ∧
    strStartsWith "http://example.org/articles/PMC1/"
      "https://pmc.ncbi.nlm.nih.gov" = false := by decide

/-- C9 amended: hrefs beginning with a slash, or lacking the http prefix
altogether, are prefixed with the site origin before deduplication, but an
href that already starts with http is kept verbatim (so it need not be https
nor rooted at the source site); in the Index-site path every candidate is
normalized to the canonical PubMed record URL built from a PMID of at least
six digits. -/
theorem c9_candidate_normalization (k : Nat)
    (pmcSel : List (List (Option String))) (pmcAll : List (Option String))
    (pubSel : List (List (Option String))) (pubAll : List (Option String)) :
    (∀ u ∈ enumeratePmc pmcSel pmcAll k, ∃ href,
      (strStartsWith href "/" = true ∧ u = pmcOrigin ++ href) ∨
      (strStartsWith href "/" = false ∧ strStartsWith href "http" = false ∧
        u = pmcOrigin ++ "/" ++ href) ∨
      (strStartsWith href "http" = true ∧ u = href)) ∧
    (∀ u ∈ enumeratePubmed pubSel pubAll k, ∃ pmid,
      u = pubmedUrlOf pmid ∧ 6 ≤ pmid.length ∧
      pmid.data.all Char.isDigit = true) := by
  constructor
  · intro u hu
    obtain ⟨href, hn⟩ := mem_stream_of_mem_enumeratePmc pmcSel pmcAll k u hu
    have hnorm : normalizePmcHref href = u := by
      cases hn with
      | inl h =>
        rw [pmcNorm] at h
        by_cases hc : pmcSelCond href = true
        · rw [if_pos hc] at h; exact Option.some.inj h
        · rw [if_neg hc] at h; simp at h
      | inr h =>
        rw [pmcFbNorm] at h
        by_cases hc : pmcFbCond href = true
        · rw [if_pos hc] at h; exact Option.some.inj h
        · rw [if_neg hc] at h; simp at h
    refine ⟨href, ?_⟩
    rcases normalizePmcHref_cases href with ⟨h1, h2⟩ | ⟨h1, h2, h3⟩ | ⟨h1, h2, h3⟩
    · exact Or.inl ⟨h1, by rw [← hnorm, h2]⟩
    · exact Or.inr (Or.inl ⟨h1, h2, by rw [← hnorm, h3]⟩)
    · exact Or.inr (Or.inr ⟨h2, by rw [← hnorm, h3]⟩)
  · intro u hu
    obtain ⟨href, hn⟩ := mem_stream_of_mem_enumeratePubmed pubSel pubAll k u hu
    cases hn with
    | inl h =>
      rw [pubmedNorm] at h
      obtain ⟨pmid, he, hm⟩ := Option.map_eq_some'.mp h
      obtain ⟨hl, hd⟩ := extractPmid_spec href pmid he
      exact ⟨pmid, hm.symm, hl, hd⟩
    | inr h =>
      rw [pubmedAltNorm] at h
      cases he : extractPmid href with
      | none => simp only [he] at h; simp at h
      | some pmid =>
        simp only [he] at h
        obtain ⟨hl, hd⟩ := extractPmid_spec href pmid he
        by_cases hc : (6 ≤ pmid.length && pmid.length ≤ 8) = true
        · rw [if_pos hc] at h
          exact ⟨pmid, (Option.some.inj h).symm, hl, hd⟩
        · rw [if_neg hc] at h; simp at h

/-- Witness for c9_candidate_normalization at a concrete run: a relative
href on the PMC side and a PubMed record link both occur. -/
theorem c9_candidate_normalization_witness :
    ∃ href,
      (strStartsWith href "/" = true ∧
        "https://pmc.ncbi.nlm.nih.gov/articles/PMC1" = pmcOrigin ++ href) ∨
      (strStartsWith href "/" = false ∧ strStartsWith href "http" = false ∧
        "https://pmc.ncbi.nlm.nih.gov/articles/PMC1" = pmcOrigin ++ "/" ++ href) ∨
      (strStartsWith href "http" = true ∧
        "https://pmc.ncbi.nlm.nih.gov/articles/PMC1" = href) :=
  (c9_candidate_normalization 5 [[some "/articles/PMC1"]] [] [] []).1
    "https://pmc.ncbi.nlm.nih.gov/articles/PMC1" (by decide)

/-- C2: for every loose match (a link ending in .pdf whose URL does not
contain the canonical fragment) with extracted filename f and known
identifier, the URL the Locator returns is the canonical template
instantiated with the identifier and f, and is never the raw loose URL;
this covers the Priority-2 branch of the PMC locator and the loose
construction branch of the PubMed locator. -/
theorem c2_loose_match_reconstruction (pmcId href : String)
    (t : List (Option String))
    (hpdf : strEndsWith href ".pdf" = true)
    (hloose : strContains href (pdfFragment pmcId) = false) :
    loosePdfStep pmcId href =
      some (canonicalPdfUrl pmcId (lastSegment href)) ∧
    canonicalPdfUrl pmcId (lastSegment href) ≠ href ∧
    pubmedLooseConstruct pmcId (some href :: t) =
      some (canonicalPdfUrl pmcId (lastSegment href)) := by
  have hne : href.isEmpty = false := by
    cases he : href.isEmpty with
    | false => rfl
    | true =>
      rw [String.isEmpty_iff] at he
      rw [he] at hpdf
      exact absurd hpdf (by decide)
  refine ⟨?_, canonical_ne_loose pmcId (lastSegment href) href hloose, ?_⟩
  · rw [loosePdfStep, hpdf]
    simp only [if_true, hloose]
    rfl
  · rw [pubmedLooseConstruct, optStr_some href hne]
    simp [hpdf]

/-- Witness for c2_loose_match_reconstruction at the loose link
/pdf/zbc15870.pdf with identifier PMC7681026. -/
theorem c2_loose_match_reconstruction_witness :
    loosePdfStep "PMC7681026" "/pdf/zbc15870.pdf" =
      some (canonicalPdfUrl "PMC7681026" (lastSegment "/pdf/zbc15870.pdf")) ∧
    canonicalPdfUrl "PMC7681026" (lastSegment "/pdf/zbc15870.pdf") ≠
      "/pdf/zbc15870.pdf" ∧
    pubmedLooseConstruct "PMC7681026" (some "/pdf/zbc15870.pdf" :: []) =
      some (canonicalPdfUrl "PMC7681026" (lastSegment "/pdf/zbc15870.pdf")) :=
  c2_loose_match_reconstruction "PMC7681026" "/pdf/zbc15870.pdf" []
    (by decide) (by decide)

/-- C5: in both prioritized chains, the fixed order is respected and the
first success short-circuits the rest: the fetcher result is the first
successful method, a successful Method 1 means exactly one method is
invoked, and any invoked tier has all earlier tiers failing; likewise for
the resolver tiers. -/
theorem c5_tier_ordering (downloadDir pdfLink fallbackBase : String)
    (fe : FetchEnv) (pg : ResolverPage) :
    (fetchPdf downloadDir pdfLink fallbackBase fe =
      chainFirst (fetchTiers downloadDir pdfLink fallbackBase fe)) ∧
    ((method1 downloadDir (deriveFilename pdfLink fallbackBase)
        fe.clickResults).isSome = true →
      chainCount (fetchTiers downloadDir pdfLink fallbackBase fe) = 1) ∧
    (∀ i, i + 1 < chainCount (fetchTiers downloadDir pdfLink fallbackBase fe) →
      (fetchTiers downloadDir pdfLink fallbackBase fe)[i]? = some none) ∧
    (resolvePmc pg = chainFirst (resolverTiers pg)) ∧
    ((tier1 pg.sectionLinks).isSome = true → chainCount (resolverTiers pg) = 1) ∧
    (∀ i, i + 1 < chainCount (resolverTiers pg) →
      (resolverTiers pg)[i]? = some none) := by
  refine ⟨?_, ?_, fun i => chainCount_earlier_none _ i, ?_, ?_,
    fun i => chainCount_earlier_none _ i⟩
  · rw [fetchPdf, fetchTiers]
    cases method1 downloadDir (deriveFilename pdfLink fallbackBase) fe.clickResults with
    | some f => rfl
    | none =>
      cases method2 downloadDir (deriveFilename pdfLink fallbackBase) fe.httpResp with
      | some f => rfl
      | none =>
        cases method3 downloadDir (deriveFilename pdfLink fallbackBase) fe.navResult with
        | some f => rfl
        | none => rfl
  · intro h
    rw [Option.isSome_iff_exists] at h
    obtain ⟨f, hf⟩ := h
    rw [fetchTiers]
    simp only [hf, chainCount]
  · rw [resolvePmc, resolverTiers]
    cases tier1 pg.sectionLinks with
    | some r => rfl
    | none =>
      cases tier2 pg.selectorLinks with
      | some r => rfl
      | none =>
        cases tier3 pg.content with
        | some r => rfl
        | none => rfl
  · intro h
    rw [Option.isSome_iff_exists] at h
    obtain ⟨r, hr⟩ := h
    rw [resolverTiers]
    simp only [hr, chainCount]

/-- Witness for c5_tier_ordering: with a first click that downloads and a
full-text section that resolves, both chains stop after tier 1. -/
theorem c5_tier_ordering_witness :
    chainCount (fetchTiers "downloads"
      "https://pmc.ncbi.nlm.nih.gov/articles/PMC1/pdf/a.pdf" "PMC1"
      demoFetchEnv) = 1 ∧
    chainCount (resolverTiers demoResolverPage) = 1 :=
  ⟨((c5_tier_ordering "downloads"
      "https://pmc.ncbi.nlm.nih.gov/articles/PMC1/pdf/a.pdf" "PMC1"
      demoFetchEnv demoResolverPage).2.1 (by decide)),
   ((c5_tier_ordering "downloads"
      "https://pmc.ncbi.nlm.nih.gov/articles/PMC1/pdf/a.pdf" "PMC1"
      demoFetchEnv demoResolverPage).2.2.2.2.1 (by decide))⟩

/-- C1 as stated is false: Methods 1 and 3 save whatever bytes the captured
browser download event carries, without any signature check, so a recorded
success can have content that does not start with the PDF magic bytes.
Concretely, a click-triggered download event delivering two HTML bytes is
recorded as a success by the fetcher. -/
theorem c1_counterexample :
    fetchPdf "downloads" "https://pmc.ncbi.nlm.nih.gov/articles/PMC1/pdf/a.pdf"
        "PMC1" ⟨[some ⟨none, [60, 104]⟩], none, none⟩ =
      some ⟨"downloads/a.pdf", [60, 104]⟩ ∧
    pdfMagic.isPrefixOf [60, 104] = false := by decide

/-- C1 amended: the content-signature guarantee holds exactly for the direct
fetch strategy (Method 2): a Method-2 success always has content starting
with the PDF magic bytes, and an HTTP response whose status is OK but whose
body lacks the signature is never treated as a Method-2 success.  Methods 1
and 3 record browser download events without inspecting their bytes. -/
theorem c1_direct_fetch_magic (downloadDir filename : String) (resp : HttpResp)
    (f : SavedFile) :
    (method2 downloadDir filename (some resp) = some f →
      pdfMagic.isPrefixOf f.content = true) ∧
    (resp.ok = true → pdfMagic.isPrefixOf resp.body = false →
      method2 downloadDir filename (some resp) = none) := by
  constructor
  · intro h
    rw [method2] at h
    by_cases hok : resp.ok = true
    · rw [if_pos hok] at h
      by_cases hm : pdfMagic.isPrefixOf resp.body = true
      · rw [if_pos hm] at h
        cases h
        exact hm
      · rw [if_neg hm] at h
        exact absurd h (by simp)
    · rw [if_neg hok] at h
      exact absurd h (by simp)
  · intro hok hbad
    rw [method2, if_pos hok, hbad]
    simp

/-- Witness for c1_direct_fetch_magic: a valid PDF body succeeds with the
signature present, and an OK response carrying HTML bytes is rejected. -/
theorem c1_direct_fetch_magic_witness :
    pdfMagic.isPrefixOf
      (SavedFile.mk "downloads/x.pdf" [37, 80, 68, 70, 9]).content = true ∧
    method2 "downloads" "x.pdf" (some ⟨true, [60, 104]⟩) = none :=
  ⟨(c1_direct_fetch_magic "downloads" "x.pdf" ⟨true, [37, 80, 68, 70, 9]⟩
      ⟨"downloads/x.pdf", [37, 80, 68, 70, 9]⟩).1 (by decide),
   (c1_direct_fetch_magic "downloads" "x.pdf" ⟨true, [60, 104]⟩
      ⟨"downloads/x.pdf", []⟩).2 (by decide) (by decide)⟩

/-! Helper lemmas about the article loops. -/

theorem runPmcArticles_append (downloadDir : String) (envf : Nat → PmcArticleEnv) :
    ∀ (us : List String) (i : Nat) (vs : List String),
      runPmcArticles downloadDir envf i (us ++ vs) =
        runPmcArticles downloadDir envf i us ++
          runPmcArticles downloadDir envf (i + us.length) vs := by
  intro us
  induction us with
  | nil => intro i vs; simp [runPmcArticles]
  | cons w ws ih =>
    intro i vs
    have harith : i + (w :: ws).length = i + 1 + ws.length := by
      simp [List.length_cons]
      omega
    rw [List.cons_append, runPmcArticles, runPmcArticles, harith]
    cases hp : processPmcArticle i w downloadDir (envf i) with
    | some p =>
      rw [List.cons_append, ih (i + 1) vs]
    | none =>
      rw [ih (i + 1) vs]

theorem runPubmedArticles_append (downloadDir : String)
    (envf : Nat → PubmedArticleEnv) :
    ∀ (us : List String) (i : Nat) (vs : List String),
      runPubmedArticles downloadDir envf i (us ++ vs) =
        runPubmedArticles downloadDir envf i us ++
          runPubmedArticles downloadDir envf (i + us.length) vs := by
  intro us
  induction us with
  | nil => intro i vs; simp [runPubmedArticles]
  | cons w ws ih =>
    intro i vs
    have harith : i + (w :: ws).length = i + 1 + ws.length := by
      simp [List.length_cons]
      omega
    rw [List.cons_append, runPubmedArticles, runPubmedArticles, harith]
    cases hp : processPubmedArticle downloadDir (envf i) with
    | some p =>
      rw [List.cons_append, ih (i + 1) vs]
    | none =>
      rw [ih (i + 1) vs]

/-- C6: article-level isolation.  If processing the candidate at position
us.length fails (every strategy exhausted or a navigation exception raised
inside its per-article step, both of which make the per-article step yield
none), the remaining candidates are still processed in order and their
successful results still appear in the returned list; no per-article
failure aborts the loop.  This holds for both pipelines. -/
theorem c6_article_isolation (downloadDir : String) (envf : Nat → PmcArticleEnv)
    (penvf : Nat → PubmedArticleEnv) (i : Nat) (us vs : List String) (u v : String)
    (h1 : processPmcArticle (i + us.length) u downloadDir
      (envf (i + us.length)) = none)
    (h2 : processPubmedArticle downloadDir (penvf (i + us.length)) = none) :
    runPmcArticles downloadDir envf i (us ++ u :: vs) =
      runPmcArticles downloadDir envf i us ++
        runPmcArticles downloadDir envf (i + us.length + 1) vs ∧
    runPubmedArticles downloadDir penvf i (us ++ v :: vs) =
      runPubmedArticles downloadDir penvf i us ++
        runPubmedArticles downloadDir penvf (i + us.length + 1) vs := by
  constructor
  · rw [runPmcArticles_append, runPmcArticles, h1]
  · rw [runPubmedArticles_append, runPubmedArticles, h2]

/-- Witness for c6_article_isolation: three candidates where the second one
fails; the other two still download. -/
theorem c6_article_isolation_witness :
    runPmcArticles "downloads" demoPmcEnvf 1
        ([demoArticleUrl] ++ demoArticleUrl :: [demoArticleUrl]) =
      runPmcArticles "downloads" demoPmcEnvf 1 [demoArticleUrl] ++
        runPmcArticles "downloads" demoPmcEnvf 3 [demoArticleUrl] ∧
    runPubmedArticles "downloads" demoPubmedEnvf 1
        ([demoArticleUrl] ++ demoArticleUrl :: [demoArticleUrl]) =
      runPubmedArticles "downloads" demoPubmedEnvf 1 [demoArticleUrl] ++
        runPubmedArticles "downloads" demoPubmedEnvf 3 [demoArticleUrl] :=
  c6_article_isolation "downloads" demoPmcEnvf demoPubmedEnvf 1
    [demoArticleUrl] [demoArticleUrl] demoArticleUrl demoArticleUrl
    (by decide) (by decide)

/-! Helper lemmas for the filename invariant. -/

theorem deriveFilename_pdf (l b : String) :
    strEndsWith (deriveFilename l b) ".pdf" = true := by
  rw [deriveFilename]
  by_cases h : strEndsWith (lastSegment l) ".pdf" = true
  · rw [if_pos h]
    exact h
  · rw [if_neg h]
    exact strEndsWith_append_self b ".pdf"

theorem method1_path_pdf (d fn : String) (hfn : strEndsWith fn ".pdf" = true) :
    ∀ (clicks : List (Option DownloadEv)) (f : SavedFile),
      method1 d fn clicks = some f → strEndsWith f.path ".pdf" = true := by
  intro clicks
  induction clicks with
  | nil => intro f h; cases h
  | cons c t ih =>
    intro f h
    cases c with
    | none =>
      rw [method1] at h
      exact ih f h
    | some dl =>
      rw [method1] at h
      cases h
      cases ho : optStr dl.suggested with
      | some s =>
        simp only [ho]
        by_cases hs : strEndsWith s ".pdf" = true
        · rw [if_pos hs]
          exact strEndsWith_append (d ++ "/") s ".pdf" hs
        · rw [if_neg hs]
          exact strEndsWith_append (d ++ "/") fn ".pdf" hfn
      | none =>
        simp only [ho]
        exact strEndsWith_append (d ++ "/") fn ".pdf" hfn

theorem method2_path_pdf (d fn : String) (hfn : strEndsWith fn ".pdf" = true)
    (resp : Option HttpResp) (f : SavedFile) (h : method2 d fn resp = some f) :
    strEndsWith f.path ".pdf" = true := by
  cases resp with
  | none => cases h
  | some r =>
    rw [method2] at h
    by_cases hok : r.ok = true
    · rw [if_pos hok] at h
      by_cases hm : pdfMagic.isPrefixOf r.body = true
      · rw [if_pos hm] at h
        cases h
        exact strEndsWith_append (d ++ "/") fn ".pdf" hfn
      · rw [if_neg hm] at h
        exact absurd h (by simp)
    · rw [if_neg hok] at h
      exact absurd h (by simp)

theorem method3_path_pdf (d fn : String) (hfn : strEndsWith fn ".pdf" = true)
    (nav : Option DownloadEv) (f : SavedFile) (h : method3 d fn nav = some f) :
    strEndsWith f.path ".pdf" = true := by
  cases nav with
  | none => cases h
  | some dl =>
    rw [method3] at h
    cases h
    exact strEndsWith_append (d ++ "/") fn ".pdf" hfn

theorem fetchPdf_path_pdf (d l b : String) (env : FetchEnv) (f : SavedFile)
    (h : fetchPdf d l b env = some f) : strEndsWith f.path ".pdf" = true := by
  rw [fetchPdf] at h
  have hfn := deriveFilename_pdf l b
  cases h1 : method1 d (deriveFilename l b) env.clickResults with
  | some g =>
    rw [h1] at h
    cases h
    exact method1_path_pdf d (deriveFilename l b) hfn env.clickResults f h1
  | none =>
    rw [h1] at h
    cases h2 : method2 d (deriveFilename l b) env.httpResp with
    | some g =>
      rw [h2] at h
      cases h
      exact method2_path_pdf d (deriveFilename l b) hfn env.httpResp f h2
    | none =>
      rw [h2] at h
      exact method3_path_pdf d (deriveFilename l b) hfn env.navResult f h

theorem processPmcArticle_path_pdf (i : Nat) (url d : String)
    (env : PmcArticleEnv) (p : String)
    (h : processPmcArticle i url d env = some p) :
    strEndsWith p ".pdf" = true := by
  simp only [processPmcArticle] at h
  by_cases hg : env.gotoFails = true
  · rw [if_pos hg] at h
    exact absurd h (by simp)
  · rw [if_neg hg] at h
    cases hl : locatePmcPdf (pmcIdOfUrl url) env.page with
    | none =>
      simp only [hl] at h
      exact absurd h (by simp)
    | some pdfLink =>
      simp only [hl, Option.map_eq_some'] at h
      obtain ⟨f, hf, hp⟩ := h
      rw [← hp]
      exact fetchPdf_path_pdf d pdfLink _ env.fetch f hf

theorem processPubmedArticle_path_pdf (d : String) (env : PubmedArticleEnv)
    (p : String) (h : processPubmedArticle d env = some p) :
    strEndsWith p ".pdf" = true := by
  simp only [processPubmedArticle] at h
  by_cases hg : env.gotoFails = true
  · rw [if_pos hg] at h
    exact absurd h (by simp)
  · rw [if_neg hg] at h
    cases hr : resolvePmc env.resolver with
    | none =>
      simp only [hr] at h
      exact absurd h (by simp)
    | some r =>
      obtain ⟨pmcId, pmcLink⟩ := r
      simp only [hr] at h
      by_cases hg2 : env.gotoPmcFails = true
      · rw [if_pos hg2] at h
        exact absurd h (by simp)
      · rw [if_neg hg2] at h
        cases hl : locatePubmedPdf pmcId env.pdfSelLinks env.loosePdfLinks with
        | none =>
          simp only [hl] at h
          exact absurd h (by simp)
        | some pdfLink =>
          simp only [hl, Option.map_eq_some'] at h
          obtain ⟨f, hf, hp⟩ := h
          rw [← hp]
          exact fetchPdf_path_pdf d pdfLink pmcId env.fetch f hf

theorem runPmcArticles_path_pdf (d : String) (envf : Nat → PmcArticleEnv) :
    ∀ (urls : List String) (i : Nat) (p : String),
      p ∈ runPmcArticles d envf i urls → strEndsWith p ".pdf" = true := by
  intro urls
  induction urls with
  | nil => intro i p h; cases h
  | cons u t ih =>
    intro i p h
    rw [runPmcArticles] at h
    cases hp : processPmcArticle i u d (envf i) with
    | some q =>
      rw [hp] at h
      cases h with
      | head => exact processPmcArticle_path_pdf i u d (envf i) p hp
      | tail _ h => exact ih (i + 1) p h
    | none =>
      rw [hp] at h
      exact ih (i + 1) p h

theorem runPubmedArticles_path_pdf (d : String) (envf : Nat → PubmedArticleEnv) :
    ∀ (urls : List String) (i : Nat) (p : String),
      p ∈ runPubmedArticles d envf i urls → strEndsWith p ".pdf" = true := by
  intro urls
  induction urls with
  | nil => intro i p h; cases h
  | cons u t ih =>
    intro i p h
    rw [runPubmedArticles] at h
    cases hp : processPubmedArticle d (envf i) with
    | some q =>
      rw [hp] at h
      cases h with
      | head => exact processPubmedArticle_path_pdf d (envf i) p hp
      | tail _ h => exact ih (i + 1) p h
    | none =>
      rw [hp] at h
      exact ih (i + 1) p h

/-- C10: every path in the list returned by either pipeline function ends in
.pdf.  The filename comes from the last segment of the located document URL
(deriveFilename), is replaced by the identifier (or a paper index) with a
.pdf suffix when that segment does not end in .pdf, and a site-suggested
filename replaces it only when it itself ends in .pdf. -/
theorem c10_results_end_in_pdf (k : Nat) (downloadDir : String)
    (env : PmcSearchEnv) (penv : PubmedSearchEnv) :
    (∀ p ∈ (runPmcPipeline k downloadDir env).1, strEndsWith p ".pdf" = true) ∧
    (∀ p ∈ (runPubmedPipeline k downloadDir penv).1,
      strEndsWith p ".pdf" = true) := by
  constructor
  · intro p hp
    rw [runPmcPipeline] at hp
    by_cases he : (pmcResultLinks env.selLinks env.allLinks).isEmpty = true
    · rw [if_pos he] at hp
      cases hp
    · rw [if_neg he] at hp
      exact runPmcArticles_path_pdf downloadDir env.articleEnv _ 1 p hp
  · intro p hp
    rw [runPubmedPipeline] at hp
    by_cases he : (pubmedResultLinks penv.selLinks penv.allLinks k).isEmpty = true
    · rw [if_pos he] at hp
      cases hp
    · rw [if_neg he] at hp
      exact runPubmedArticles_path_pdf downloadDir penv.articleEnv _ 1 p hp

/-- Witness for c10_results_end_in_pdf: a full run of each pipeline yields a
path, and it ends in .pdf. -/
theorem c10_results_end_in_pdf_witness :
    strEndsWith "downloads/a.pdf" ".pdf" = true ∧
    strEndsWith "downloads/b.pdf" ".pdf" = true :=
  ⟨(c10_results_end_in_pdf 1 "downloads" demoPmcSearchEnv demoPubmedSearchEnv).1
      "downloads/a.pdf" (by decide),
   (c10_results_end_in_pdf 1 "downloads" demoPmcSearchEnv demoPubmedSearchEnv).2
      "downloads/b.pdf" (by decide)⟩

/-! Helper lemmas about the resolver tiers. -/

theorem tier1_link_from_href :
    ∀ (sl : List (Option String)) (id link : String),
      tier1 sl = some (id, link) →
      ∃ href, extractPmcId href = some id ∧ link = normalizePmcHref href := by
  intro sl
  induction sl with
  | nil => intro id link h; cases h
  | cons hd t ih =>
    intro id link h
    rw [tier1] at h
    cases ho : optStr hd with
    | none =>
      simp only [ho] at h
      exact ih id link h
    | some href =>
      simp only [ho] at h
      cases he : extractPmcId href with
      | none =>
        simp only [he] at h
        exact ih id link h
      | some id2 =>
        simp only [he] at h
        cases h
        exact ⟨href, he, rfl⟩

theorem tier2Inner_link_from_href :
    ∀ (sl : List (Option String)) (id link : String),
      tier2Inner sl = some (id, link) →
      ∃ href, extractPmcId href = some id ∧ link = normalizePmcHref href := by
  intro sl
  induction sl with
  | nil => intro id link h; cases h
  | cons hd t ih =>
    intro id link h
    rw [tier2Inner] at h
    cases ho : optStr hd with
    | none =>
      simp only [ho] at h
      exact ih id link h
    | some href =>
      simp only [ho] at h
      by_cases hc : tier2Cond href = true
      · rw [if_pos hc] at h
        cases he : extractPmcId href with
        | none =>
          simp only [he] at h
          exact ih id link h
        | some id2 =>
          simp only [he] at h
          cases h
          exact ⟨href, he, rfl⟩
      · rw [if_neg hc] at h
        exact ih id link h

theorem tier2_link_from_href :
    ∀ (sll : List (List (Option String))) (id link : String),
      tier2 sll = some (id, link) →
      ∃ href, extractPmcId href = some id ∧ link = normalizePmcHref href := by
  intro sll
  induction sll with
  | nil => intro id link h; cases h
  | cons links rest ih =>
    intro id link h
    rw [tier2] at h
    by_cases he : links.isEmpty = true
    · rw [if_pos he] at h
      exact ih id link h
    · rw [if_neg he] at h
      cases hi : tier2Inner links with
      | some r =>
        rw [hi] at h
        cases h
        exact tier2Inner_link_from_href links id link hi
      | none =>
        rw [hi] at h
        exact ih id link h

theorem tier3_link_canonical (content : String) (id link : String)
    (h : tier3 content = some (id, link)) : link = canonicalArticleUrl id := by
  rw [tier3] at h
  simp only [Option.map_eq_some'] at h
  obtain ⟨n, _, hn⟩ := h
  cases hn
  rfl

theorem processPubmedArticle_skip (downloadDir : String) (env : PubmedArticleEnv)
    (h : resolvePmc env.resolver = none) :
    processPubmedArticle downloadDir env = none := by
  simp only [processPubmedArticle, h]
  by_cases hg : env.gotoFails = true
  · rw [if_pos hg]
  · rw [if_neg hg]

/-- C4 as stated is false: in tiers 1 and 2 the article-page URL used for the
subsequent navigation is derived from the matched href (taken verbatim when
the href is absolute), not constructed from the identifier alone.
Concretely, a full-text link on the old host resolves to PMC123456, yet the
URL used is the raw matched link, which differs from the canonical article
URL of that identifier. -/
theorem c4_counterexample :
    resolvePmc ⟨[some "https://www.ncbi.nlm.nih.gov/pmc/articles/PMC123456/"],
        [], ""⟩ =
      some ("PMC123456",
        "https://www.ncbi.nlm.nih.gov/pmc/articles/PMC123456/") ∧
    "https://www.ncbi.nlm.nih.gov/pmc/articles/PMC123456/" ≠
      canonicalArticleUrl "PMC123456" := by decide

/-- C4 amended: when tier 3 yields an identifier, the article-page URL is
constructed from the identifier via the canonical template; when tier 1 or
tier 2 yields an identifier, the URL is the matched href normalized (origin
prepended when relative, kept verbatim when absolute), so it is not in
general a function of the identifier alone.  When no tier yields an
identifier, the candidate is skipped without raising and the remaining
candidates are still processed. -/
theorem c4_resolver_url_and_skip (content : String) (sl : List (Option String))
    (sll : List (List (Option String))) (id link : String)
    (downloadDir : String) (env : PubmedArticleEnv)
    (penvf : Nat → PubmedArticleEnv) (i : Nat) (us vs : List String) (v : String)
    (hskip : resolvePmc ((penvf (i + us.length)).resolver) = none) :
    (tier3 content = some (id, link) → link = canonicalArticleUrl id) ∧
    (tier1 sl = some (id, link) →
      ∃ href, extractPmcId href = some id ∧ link = normalizePmcHref href) ∧
    (tier2 sll = some (id, link) →
      ∃ href, extractPmcId href = some id ∧ link = normalizePmcHref href) ∧
    (resolvePmc env.resolver = none →
      processPubmedArticle downloadDir env = none) ∧
    runPubmedArticles downloadDir penvf i (us ++ v :: vs) =
      runPubmedArticles downloadDir penvf i us ++
        runPubmedArticles downloadDir penvf (i + us.length + 1) vs := by
  refine ⟨tier3_link_canonical content id link, tier1_link_from_href sl id link,
    tier2_link_from_href sll id link, processPubmedArticle_skip downloadDir env, ?_⟩
  rw [runPubmedArticles_append, runPubmedArticles,
    processPubmedArticle_skip downloadDir (penvf (i + us.length)) hskip]

/-- Witness for c4_resolver_url_and_skip: a raw-markup match constructs the
canonical article URL, and a candidate with no identifier is skipped while
its neighbours are still processed. -/
theorem c4_resolver_url_and_skip_witness :
    "https://pmc.ncbi.nlm.nih.gov/articles/PMC123456/" =
      canonicalArticleUrl "PMC123456" ∧
    processPubmedArticle "downloads" demoBadPubmedArticleEnv = none ∧
    runPubmedArticles "downloads" demoPubmedEnvf 1
        ([demoArticleUrl] ++ demoArticleUrl :: [demoArticleUrl]) =
      runPubmedArticles "downloads" demoPubmedEnvf 1 [demoArticleUrl] ++
        runPubmedArticles "downloads" demoPubmedEnvf 3 [demoArticleUrl] := by
  have h := c4_resolver_url_and_skip "x PMC123456 y" [] [] "PMC123456"
    "https://pmc.ncbi.nlm.nih.gov/articles/PMC123456/" "downloads"
    demoBadPubmedArticleEnv demoPubmedEnvf 1 [demoArticleUrl] [demoArticleUrl]
    demoArticleUrl (by decide)
  exact ⟨h.1 (by decide), h.2.2.2.1 (by decide), h.2.2.2.2⟩

/-- C7 as stated is false: on total enumeration failure the PMC entry point
writes only the rendered snapshot debug_search_page.png (line 117); no raw
markup dump is written on that path, unlike the PubMed entry point. -/
theorem c7_counterexample :
    runPmcPipeline 5 "downloads" demoEmptyPmcSearchEnv =
      ([], ["debug_search_page.png"]) ∧
    strEndsWith "debug_search_page.png" ".html" = false := by decide

/-- C7 amended: on total enumeration failure both entry points return the
empty list rather than raising; the PMC entry point writes only a rendered
snapshot to a fixed filename, while the PubMed entry point writes both a
rendered snapshot and a raw markup dump to fixed filenames. -/
theorem c7_debug_artifacts (k : Nat) (dir : String) (env : PmcSearchEnv)
    (penv : PubmedSearchEnv)
    (h1 : pmcResultLinks env.selLinks env.allLinks = [])
    (h2 : pubmedResultLinks penv.selLinks penv.allLinks k = []) :
    runPmcPipeline k dir env = ([], ["debug_search_page.png"]) ∧
    runPubmedPipeline k dir penv =
      ([], ["debug_pubmed_search_page.png", "debug_pubmed_search_page.html"]) := by
  constructor
  · simp [runPmcPipeline, h1]
  · simp [runPubmedPipeline, h2]

/-- Witness for c7_debug_artifacts on search pages with no links. -/
theorem c7_debug_artifacts_witness :
    runPmcPipeline 5 "downloads" demoEmptyPmcSearchEnv =
      ([], ["debug_search_page.png"]) ∧
    runPubmedPipeline 5 "downloads" demoEmptyPubmedSearchEnv =
      ([], ["debug_pubmed_search_page.png", "debug_pubmed_search_page.html"]) :=
  c7_debug_artifacts 5 "downloads" demoEmptyPmcSearchEnv demoEmptyPubmedSearchEnv
    (by decide) (by decide)

/-- C8: the browser session, acquired once per pipeline invocation, is closed
on every exit path: whenever a launch event occurs the trace also contains a
close event (the finally clause) or a stop event (the teardown of the with
block over sync_playwright, which closes every launched browser); once the
try block is entered the finally clause itself closes the browser for all
three body outcomes: normal return, early return on enumeration failure,
and a raised exception. -/
theorem c8_session_closed (env : SessionEnv) :
    (SEv.launch ∈ sessionEvents env →
      SEv.close ∈ sessionEvents env ∨ SEv.stop ∈ sessionEvents env) ∧
    (env.launchOk = true → env.newContextOk = true → env.newPageOk = true →
      SEv.close ∈ sessionEvents env) ∧
    SEv.stop ∈ sessionEvents env := by
  obtain ⟨l, c, p, b⟩ := env
  cases l <;> cases c <;> cases p <;> cases b <;> decide

/-- Witness for c8_session_closed: a session whose body raises still closes
the browser in the finally clause. -/
theorem c8_session_closed_witness :
    SEv.close ∈ sessionEvents ⟨true, true, true, BodyOutcome.raises⟩ :=
  (c8_session_closed ⟨true, true, true, BodyOutcome.raises⟩).2.1
    (by decide) (by decide) (by decide)

end PaperDL


